import Mathlib

/-!
K-Calibrator: the calibration routine `GetK` of `src/main.cpp`

A shallow embedding of the firmware's global variables, of `setup` (the part that
changes a program variable) and of `GetK`, followed by the properties of the
calibration arithmetic and of the sampling loop.

Modelling conventions.

* A C `float` holds an exact rational (`ℚ`): rounding and overflow of the 32-bit
  format are not modelled.  A `float` produced by a division is an `Option ℚ`:
  `none` stands for the non-finite result (`inf` or `nan`) of dividing by zero, and
  it propagates through the subtraction and the multiplication that follow, as
  non-finite values do in IEEE arithmetic.
* A C `int` is an `Int`: the `int`s of the sketch (2000, 40, their sum, the loop
  variable, the ADC values) stay far inside 16 bits, so no wrap-around is modelled.
* The hardware is an oracle: `Hardware.analogRead n` is the value returned by the
  `n`-th call of `analogRead`, `Hardware.getTempC n` the value returned by the `n`-th
  call of `sensors.getTempCByIndex`.  The state counts the calls made so far and
  records every hardware call in `trace`.
* The compile-time switch `AUTOTEMPCOMP_ENABLED` is a `Bool` argument.
-/

namespace KCalibrator

/-! ## Data model -/

/-- Analog pins named by the sketch. -/
inductive Pin
  | A0
  | A1
  | A3
  deriving DecidableEq, Repr

/-- Logic level written to a digital pin. -/
inductive Level
  | LOW
  | HIGH
  deriving DecidableEq, Repr

/-- Source line 45: `int ECRead = A0;`. -/
def ECRead : Pin := Pin.A0

/-- Source line 46: `int ECGround = A1;`. -/
def ECGround : Pin := Pin.A1

/-- Source line 47: `int ECPower = A3;`. -/
def ECPower : Pin := Pin.A3

/-- Hardware calls made by `GetK`, in the order they are recorded in the trace. -/
inductive Event
  | requestTemperatures
  | getTempCByIndex (index : Nat)
  | digitalWrite (pin : Pin) (level : Level)
  | analogRead (pin : Pin)
  | delay (ms : Nat)
  deriving DecidableEq, Repr

/-- Oracle for the values the peripherals return, indexed by call number. -/
structure Hardware where
  analogRead : Nat → Int
  getTempC : Nat → ℚ

/-- Global variables of the sketch (source lines 31-83) together with the call
counters and the trace of hardware calls. -/
structure State where
  CalibrationEC : ℚ
  R1 : Int
  Ra : Int
  TempCoeff : ℚ
  TemperatureStart : ℚ
  TemperatureFinish : ℚ
  Temperature : ℚ
  EC25 : Option ℚ
  raw : ℚ
  Vin : ℚ
  Vdrop : ℚ
  Rc : Option ℚ
  K : Option ℚ
  i : Int
  buffer : ℚ
  adcReads : Nat
  tempReads : Nat
  trace : List Event

/-- Values of the globals given by their initialisers (source lines 31-83). -/
def initialState : State where
  CalibrationEC := 100 / 0.55
  R1 := 2000
  Ra := 40
  TempCoeff := 1.9387
  TemperatureStart := 0
  TemperatureFinish := 0
  Temperature := 0
  EC25 := some 0
  raw := 0
  Vin := 3
  Vdrop := 0
  Rc := some 0
  K := some 0
  i := 0
  buffer := 0
  adcReads := 0
  tempReads := 0
  trace := []

/-! ## Float division and the operations applied to its result -/

/-- Float division: no finite value when the divisor is zero. -/
def fdiv (a b : ℚ) : Option ℚ :=
  if b = 0 then none else some (a / b)

/-- Float subtraction of a finite value from a possibly non-finite one. -/
def fsub (a : Option ℚ) (b : ℚ) : Option ℚ :=
  a.map (fun x => x - b)

/-- Float multiplication of two possibly non-finite values. -/
def fmul (a b : Option ℚ) : Option ℚ :=
  match a, b with
  | some x, some y => some (x * y)
  | _, _ => none

/-! ## Hardware calls -/

/-- Call `sensors.requestTemperatures()`. -/
def requestTemperatures (s : State) : State :=
  { s with trace := s.trace ++ [Event.requestTemperatures] }

/-- Call `sensors.getTempCByIndex(index)`: the value returned and the new state. -/
def getTempCByIndex (hw : Hardware) (index : Nat) (s : State) : ℚ × State :=
  (hw.getTempC s.tempReads,
   { s with tempReads := s.tempReads + 1, trace := s.trace ++ [Event.getTempCByIndex index] })

/-- Call `digitalWrite(pin, level)`. -/
def digitalWrite (pin : Pin) (level : Level) (s : State) : State :=
  { s with trace := s.trace ++ [Event.digitalWrite pin level] }

/-- Call `analogRead(pin)`: the value returned and the new state. -/
def analogRead (hw : Hardware) (pin : Pin) (s : State) : Int × State :=
  (hw.analogRead s.adcReads,
   { s with adcReads := s.adcReads + 1, trace := s.trace ++ [Event.analogRead pin] })

/-- Call `delay(ms)`. -/
def delay (ms : Nat) (s : State) : State :=
  { s with trace := s.trace ++ [Event.delay ms] }

/-! ## `setup` -/

/-- Source line 114 of `setup`: `R1 = (R1 + Ra);`.  The other statements of `setup`
configure pins and draw on the display; they change no variable of the sketch. -/
def setup (s : State) : State :=
  { s with R1 := s.R1 + s.Ra }

/-! ## `GetK` -/

/-- Body of the sampling loop (source lines 159-165) apart from its `i++`, which
acts on the loop variable and is written out in `sampleLoop`. -/
def loopBody (hw : Hardware) (s : State) : State :=
  let s := digitalWrite ECPower Level.HIGH s
  let r := analogRead hw ECRead s
  let s := { r.2 with raw := (r.1 : ℚ) }
  let r := analogRead hw ECRead s
  let s := { r.2 with raw := (r.1 : ℚ) }
  let s := digitalWrite ECPower Level.LOW s
  let s := { s with buffer := s.buffer + s.raw }
  delay 5000 s

/-- Loop `for (int i = 0; i < 10; i++) { ...; i++; ... }` of source lines 157-166,
entered with the loop variable equal to `i`.  The loop variable is incremented once
by the body (line 164) and once by the loop header (line 157). -/
def sampleLoop (hw : Hardware) (i : Nat) (s : State) : State :=
  if i < 10 then
    let s := loopBody hw s
    let i := i + 1
    let i := i + 1
    sampleLoop hw i s
  else s
termination_by 10 - i
decreasing_by omega

/-- Source lines 152-153: read the initial temperature. -/
def readTemperatureStart (hw : Hardware) (s : State) : State :=
  let s := requestTemperatures s
  let r := getTempCByIndex hw 0 s
  { r.2 with TemperatureStart := r.1 }

/-- Source lines 172-178: read the final temperature, average, compensate. -/
def compensate (hw : Hardware) (s : State) : State :=
  let s := requestTemperatures s
  let r := getTempCByIndex hw 0 s
  let s := { r.2 with TemperatureFinish := r.1 }
  let s := { s with Temperature := (s.TemperatureStart + s.TemperatureFinish) / 2 }
  { s with EC25 := fdiv s.CalibrationEC (1 - ((25 - s.Temperature) * s.TempCoeff / 100)) }

/-- Source lines 182-190: voltage drop, resistance and cell constant. -/
def calculateK (AUTOTEMPCOMP_ENABLED : Bool) (s : State) : State :=
  let s := { s with Vdrop := (s.Vin * s.raw) / 1024 }
  let s := { s with Rc := fdiv (s.Vdrop * (s.R1 : ℚ)) (s.Vin - s.Vdrop) }
  let s := { s with Rc := fsub s.Rc (s.Ra : ℚ) }
  if AUTOTEMPCOMP_ENABLED then
    { s with K := fmul s.Rc s.EC25 }
  else
    { s with K := fmul s.Rc (some s.CalibrationEC) }

/-- The calibration function `GetK` (source lines 146-191). -/
def GetK (AUTOTEMPCOMP_ENABLED : Bool) (hw : Hardware) (s : State) : State :=
  let s := { s with buffer := 0 }
  let s := if AUTOTEMPCOMP_ENABLED then readTemperatureStart hw s else s
  let s := sampleLoop hw 0 s
  let s := { s with raw := s.buffer / 10 }
  let s := if AUTOTEMPCOMP_ENABLED then compensate hw s else s
  calculateK AUTOTEMPCOMP_ENABLED s

/-! ## Definitions used to state the properties -/

/-- The five readings the loop adds to `buffer`: the second read of every pass. -/
def accumulated (hw : Hardware) (s : State) : ℚ :=
  (hw.analogRead (s.adcReads + 1) : ℚ) + hw.analogRead (s.adcReads + 3)
    + hw.analogRead (s.adcReads + 5) + hw.analogRead (s.adcReads + 7)
    + hw.analogRead (s.adcReads + 9)

/-- Divisor of source line 178 at temperature `T` and coefficient `TC`. -/
def compensationDenominator (T TC : ℚ) : ℚ :=
  1 - ((25 - T) * TC / 100)

/-- Hardware calls of one pass of the sampling loop. -/
def passEvents : List Event :=
  [Event.digitalWrite ECPower Level.HIGH, Event.analogRead ECRead, Event.analogRead ECRead,
   Event.digitalWrite ECPower Level.LOW, Event.delay 5000]

/-- Hardware calls of one temperature reading. -/
def temperatureEvents (b : Bool) : List Event :=
  if b then [Event.requestTemperatures, Event.getTempCByIndex 0] else []

/-- Hardware whose ADC always returns `c` and whose thermometer always returns `t`. -/
def constantHardware (c : Int) (t : ℚ) : Hardware :=
  ⟨fun _ => c, fun _ => t⟩

/-- Closed form of the derived resistance in the words of the specification, for
`Vin = 3`, full scale 1024, divider resistance 2040 and pin resistance 40. -/
def closedFormRc (r : ℚ) : ℚ :=
  ((3 * r / 1024) * 2040) / (3 - (3 * r / 1024)) - 40

/-- Thermometer returning 24 on its first call and 26 afterwards, ADC constant. -/
def hardware_24_26 : Hardware :=
  ⟨fun _ => 1000, fun n => if n = 0 then 24 else 26⟩

/-- The power-on state with every working variable and both call counters changed. -/
def scrambledState : State :=
  { initialState with
    TemperatureStart := 7, TemperatureFinish := -3, Temperature := 99, EC25 := none,
    raw := 1023, Vdrop := 5, Rc := some 17, K := none, i := 4, buffer := 12345,
    adcReads := 3, tempReads := 2,
    trace := [Event.delay 1] }

/-- Hardware returning the call number as ADC value and as temperature. -/
def rampHardware : Hardware :=
  ⟨fun n => (n : Int), fun n => (n : ℚ)⟩

/-- Hardware `rampHardware` seen three ADC calls and two thermometer calls earlier. -/
def shiftedRampHardware : Hardware :=
  ⟨fun n => (n : Int) - 3, fun n => (n : ℚ) - 2⟩

/-! ## Theorems -/

/-- One pass of the sampling loop: the body runs and the loop variable grows by two. -/
theorem sampleLoop_lt (hw : Hardware) (i : Nat) (s : State) (h : i < 10) :
    sampleLoop hw i s = sampleLoop hw (i + 1 + 1) (loopBody hw s) := by
  rw [sampleLoop]
  simp [h]

/-- The sampling loop stops once the loop variable has reached 10. -/
theorem sampleLoop_ge (hw : Hardware) (i : Nat) (s : State) (h : 10 ≤ i) :
    sampleLoop hw i s = s := by
  rw [sampleLoop]
  simp [Nat.not_lt.mpr h]

/-- From `i = 0` the loop runs its body five times. -/
theorem sampleLoop_zero (hw : Hardware) (s : State) :
    sampleLoop hw 0 s
      = loopBody hw (loopBody hw (loopBody hw (loopBody hw (loopBody hw s)))) := by
  rw [sampleLoop_lt hw 0 _ (by decide), sampleLoop_lt hw 2 _ (by decide),
    sampleLoop_lt hw 4 _ (by decide), sampleLoop_lt hw 6 _ (by decide),
    sampleLoop_lt hw 8 _ (by decide), sampleLoop_ge hw 10 _ (by decide)]

/-- After `GetK`, `buffer` is the sum of the five second reads. -/
theorem GetK_buffer (b : Bool) (hw : Hardware) (s : State) :
    (GetK b hw s).buffer = accumulated hw s := by
  cases b <;>
  simp [GetK, sampleLoop_zero, loopBody, calculateK, compensate, readTemperatureStart,
    requestTemperatures, getTempCByIndex, digitalWrite, analogRead, delay, accumulated]

/-- After `GetK`, `raw` is the sum of the five second reads divided by 10. -/
theorem GetK_raw (b : Bool) (hw : Hardware) (s : State) :
    (GetK b hw s).raw = accumulated hw s / 10 := by
  cases b <;>
  simp [GetK, sampleLoop_zero, loopBody, calculateK, compensate, readTemperatureStart,
    requestTemperatures, getTempCByIndex, digitalWrite, analogRead, delay, accumulated]

/-- The configuration variables are left unchanged by `GetK`. -/
theorem GetK_config (b : Bool) (hw : Hardware) (s : State) :
    (GetK b hw s).CalibrationEC = s.CalibrationEC ∧ (GetK b hw s).R1 = s.R1
      ∧ (GetK b hw s).Ra = s.Ra ∧ (GetK b hw s).Vin = s.Vin
      ∧ (GetK b hw s).TempCoeff = s.TempCoeff := by
  cases b <;>
  simp [GetK, sampleLoop_zero, loopBody, calculateK, compensate, readTemperatureStart,
    requestTemperatures, getTempCByIndex, digitalWrite, analogRead, delay]

/-- Source line 182 in terms of the final state. -/
theorem GetK_Vdrop (b : Bool) (hw : Hardware) (s : State) :
    (GetK b hw s).Vdrop = (s.Vin * (GetK b hw s).raw) / 1024 := by
  cases b <;>
  simp [GetK, sampleLoop_zero, loopBody, calculateK, compensate, readTemperatureStart,
    requestTemperatures, getTempCByIndex, digitalWrite, analogRead, delay]

/-- Source lines 183-184 in terms of the final state. -/
theorem GetK_Rc (b : Bool) (hw : Hardware) (s : State) :
    (GetK b hw s).Rc
      = fsub (fdiv ((GetK b hw s).Vdrop * (s.R1 : ℚ)) (s.Vin - (GetK b hw s).Vdrop))
          (s.Ra : ℚ) := by
  cases b <;>
  simp [GetK, sampleLoop_zero, loopBody, calculateK, compensate, readTemperatureStart,
    requestTemperatures, getTempCByIndex, digitalWrite, analogRead, delay]

/-- Source line 187 in terms of the final state. -/
theorem GetK_K_enabled (hw : Hardware) (s : State) :
    (GetK true hw s).K = fmul (GetK true hw s).Rc (GetK true hw s).EC25 := by
  simp [GetK, sampleLoop_zero, loopBody, calculateK, compensate, readTemperatureStart,
    requestTemperatures, getTempCByIndex, digitalWrite, analogRead, delay]

/-- Source line 189 in terms of the final state. -/
theorem GetK_K_disabled (hw : Hardware) (s : State) :
    (GetK false hw s).K = fmul (GetK false hw s).Rc (some s.CalibrationEC) := by
  simp [GetK, sampleLoop_zero, loopBody, calculateK, compensate, readTemperatureStart,
    requestTemperatures, getTempCByIndex, digitalWrite, analogRead, delay]

/-- Source lines 153, 173 and 174 in terms of the oracle and the final state. -/
theorem GetK_temperatures (hw : Hardware) (s : State) :
    (GetK true hw s).TemperatureStart = hw.getTempC s.tempReads
      ∧ (GetK true hw s).TemperatureFinish = hw.getTempC (s.tempReads + 1)
      ∧ (GetK true hw s).Temperature
          = ((GetK true hw s).TemperatureStart + (GetK true hw s).TemperatureFinish) / 2 := by
  simp [GetK, sampleLoop_zero, loopBody, calculateK, compensate, readTemperatureStart,
    requestTemperatures, getTempCByIndex, digitalWrite, analogRead, delay]

/-- Source line 178 in terms of the final state. -/
theorem GetK_EC25 (hw : Hardware) (s : State) :
    (GetK true hw s).EC25
      = fdiv s.CalibrationEC
          (compensationDenominator (GetK true hw s).Temperature s.TempCoeff) := by
  simp [GetK, sampleLoop_zero, loopBody, calculateK, compensate, readTemperatureStart,
    requestTemperatures, getTempCByIndex, digitalWrite, analogRead, delay,
    compensationDenominator]

/-- With compensation disabled `GetK` does not touch `EC25`. -/
theorem GetK_EC25_disabled (hw : Hardware) (s : State) :
    (GetK false hw s).EC25 = s.EC25 := by
  simp [GetK, sampleLoop_zero, loopBody, calculateK, compensate, readTemperatureStart,
    requestTemperatures, getTempCByIndex, digitalWrite, analogRead, delay]

/-- Every invocation of `GetK` calls `analogRead` ten times. -/
theorem GetK_adcReads (b : Bool) (hw : Hardware) (s : State) :
    (GetK b hw s).adcReads = s.adcReads + 10 := by
  cases b <;>
  simp [GetK, sampleLoop_zero, loopBody, calculateK, compensate, readTemperatureStart,
    requestTemperatures, getTempCByIndex, digitalWrite, analogRead, delay]

/-- The hardware calls of one invocation of `GetK`, in order. -/
theorem GetK_trace (b : Bool) (hw : Hardware) (s : State) :
    (GetK b hw s).trace
      = s.trace ++ (temperatureEvents b ++ (passEvents ++ (passEvents ++ (passEvents ++
          (passEvents ++ (passEvents ++ temperatureEvents b)))))) := by
  cases b <;>
  simp [GetK, sampleLoop_zero, loopBody, calculateK, compensate, readTemperatureStart,
    requestTemperatures, getTempCByIndex, digitalWrite, analogRead, delay, passEvents,
    temperatureEvents]

/-- With every ADC reading equal to `c`, `GetK` leaves `c / 2` in `raw`. -/
theorem GetK_raw_constant (b : Bool) (c : Int) (t : ℚ) (s : State) :
    (GetK b (constantHardware c t) s).raw = (c : ℚ) / 2 := by
  rw [GetK_raw]
  simp only [accumulated, constantHardware]
  ring

/-- With a constant thermometer, `GetK` leaves that constant in `Temperature`. -/
theorem GetK_Temperature_constant (c : Int) (t : ℚ) (s : State) :
    (GetK true (constantHardware c t) s).Temperature = t := by
  obtain ⟨h1, h2, h3⟩ := GetK_temperatures (constantHardware c t) s
  rw [h3, h1, h2]
  simp only [constantHardware]
  ring

/-- Resistance computed from the power-on globals after `setup` when every ADC reading
is 1000: `raw = 500`, `Vdrop = 1500 / 1024`, `Rc = 255000 / 131 - 40`. -/
theorem GetK_Rc_power_on (b : Bool) (t : ℚ) :
    (GetK b (constantHardware 1000 t) (setup initialState)).Rc = some (249760 / 131) := by
  rw [GetK_Rc, GetK_Vdrop, GetK_raw_constant]
  have hne : ¬ ((3 : ℚ) - 3 * ((1000 : Int) / 2) / 1024 = 0) := by norm_num
  simp only [setup, initialState, fdiv, fsub, if_neg hne, Option.map_some']
  norm_num

/-- The product of two finite floats is the finite product. -/
theorem fmul_some (x y : ℚ) : fmul (some x) (some y) = some (x * y) := rfl

/-- A non-finite left factor gives a non-finite product. -/
theorem fmul_none_left (b : Option ℚ) : fmul none b = none := by
  cases b <;> rfl

/-- A non-finite right factor gives a non-finite product. -/
theorem fmul_none_right (a : Option ℚ) : fmul a none = none := by
  cases a <;> rfl

/-- C1: with every ADC reading equal to 512, the power-on state after `setup` and
compensation enabled, `GetK` leaves 256 in `raw`, not 512: five readings are summed
and the sum is divided by 10. -/
theorem GetK_raw_all_512 :
    (GetK true (constantHardware 512 25) (setup initialState)).raw = 256
      ∧ (GetK true (constantHardware 512 25) (setup initialState)).raw ≠ 512 := by
  rw [GetK_raw_constant]
  norm_num

/-- C2: in every invocation of `GetK` the body of the sampling loop runs five times:
the probe power pin is driven HIGH five times and LOW five times, `analogRead` is
called ten times (five discarded first reads, five second reads), `delay(5000)` is
called five times, and `buffer` ends as the sum of the five second reads. -/
theorem GetK_sampling_loop_runs_five_times (b : Bool) (hw : Hardware) (s : State) :
    (GetK b hw s).trace.count (Event.digitalWrite ECPower Level.HIGH)
        = s.trace.count (Event.digitalWrite ECPower Level.HIGH) + 5
      ∧ (GetK b hw s).trace.count (Event.digitalWrite ECPower Level.LOW)
        = s.trace.count (Event.digitalWrite ECPower Level.LOW) + 5
      ∧ (GetK b hw s).trace.count (Event.analogRead ECRead)
        = s.trace.count (Event.analogRead ECRead) + 10
      ∧ (GetK b hw s).trace.count (Event.delay 5000)
        = s.trace.count (Event.delay 5000) + 5
      ∧ (GetK b hw s).adcReads = s.adcReads + 10
      ∧ (GetK b hw s).buffer
        = (hw.analogRead (s.adcReads + 1) : ℚ) + hw.analogRead (s.adcReads + 3)
            + hw.analogRead (s.adcReads + 5) + hw.analogRead (s.adcReads + 7)
            + hw.analogRead (s.adcReads + 9) := by
  rw [GetK_trace, GetK_adcReads, GetK_buffer]
  refine ⟨?_, ?_, ?_, ?_, rfl, rfl⟩ <;>
  · rw [List.count_append]
    cases b <;> rfl

/-- C3: after `setup` has turned `R1 = 2000` into 2040 (with `Ra = 40`, `Vin = 3`),
for an averaged reading `raw < 1024` (in particular for `0 ≤ raw < 1024`) the
resistance `GetK` computes is the closed form `(Vdrop * 2040) / (3 - Vdrop) - 40` with
`Vdrop = 3 * raw / 1024`; the closed form is -40 at 0, 2000 at 512 and 2086880 at
1023. -/
theorem GetK_Rc_closed_form (b : Bool) (hw : Hardware) (s : State)
    (hVin : s.Vin = 3) (hR1 : s.R1 = 2000) (hRa : s.Ra = 40)
    (h1 : (GetK b hw (setup s)).raw < 1024) :
    (setup s).R1 = 2040
      ∧ (GetK b hw (setup s)).Rc = some (closedFormRc (GetK b hw (setup s)).raw)
      ∧ closedFormRc 0 = -40 ∧ closedFormRc 512 = 2000
      ∧ closedFormRc 1023 = 2086880 := by
  have eVin : (setup s).Vin = 3 := hVin
  have eR1 : (setup s).R1 = 2040 := by simp [setup, hR1, hRa]
  have eRa : (setup s).Ra = 40 := hRa
  refine ⟨eR1, ?_, by norm_num [closedFormRc], by norm_num [closedFormRc],
    by norm_num [closedFormRc]⟩
  rw [GetK_Rc, GetK_Vdrop, eVin, eR1, eRa]
  generalize (GetK b hw (setup s)).raw = r at h1
  have hden : (3 : ℚ) - 3 * r / 1024 ≠ 0 := by
    intro h
    linarith
  simp only [fdiv, fsub, closedFormRc, if_neg hden, Option.map_some']
  norm_num

/-- Instance of C3: power-on globals, every ADC reading 1000, hence `raw = 500`. -/
theorem GetK_Rc_closed_form_witness :
    initialState.Vin = 3 ∧ initialState.R1 = 2000 ∧ initialState.Ra = 40
      ∧ (GetK true (constantHardware 1000 25) (setup initialState)).raw = 500
      ∧ (GetK true (constantHardware 1000 25) (setup initialState)).Rc
          = some (closedFormRc (GetK true (constantHardware 1000 25) (setup initialState)).raw) :=
  ⟨rfl, rfl, rfl, by rw [GetK_raw_constant]; norm_num,
    (GetK_Rc_closed_form true (constantHardware 1000 25) initialState rfl rfl rfl
      (by rw [GetK_raw_constant]; norm_num)).2.1⟩

/-- C4: the cell constant `GetK` produces is the product `Rc * CalibrationEC` with
compensation disabled and the product `Rc * EC25` with compensation enabled, where
`Rc` is the resistance of the same invocation, `(Vdrop * R1) / (Vin - Vdrop) - Ra`
with `Vdrop = Vin * raw / 1024`, and `EC25` the compensated conductivity of the same
invocation; `K` is non-finite exactly when a factor is (a division by zero). -/
theorem GetK_K_selection (hw : Hardware) (s : State) :
    (∀ b : Bool, (GetK b hw s).Vdrop = s.Vin * (GetK b hw s).raw / 1024)
      ∧ (∀ b : Bool, s.Vin - (GetK b hw s).Vdrop ≠ 0 →
          (GetK b hw s).Rc
            = some ((GetK b hw s).Vdrop * (s.R1 : ℚ) / (s.Vin - (GetK b hw s).Vdrop)
                - (s.Ra : ℚ)))
      ∧ (∀ b : Bool, s.Vin - (GetK b hw s).Vdrop = 0 → (GetK b hw s).Rc = none)
      ∧ (∀ rc : ℚ, (GetK false hw s).Rc = some rc →
          (GetK false hw s).K = some (rc * s.CalibrationEC))
      ∧ ((GetK false hw s).Rc = none → (GetK false hw s).K = none)
      ∧ (∀ rc ec : ℚ, (GetK true hw s).Rc = some rc → (GetK true hw s).EC25 = some ec →
          (GetK true hw s).K = some (rc * ec))
      ∧ ((GetK true hw s).Rc = none ∨ (GetK true hw s).EC25 = none →
          (GetK true hw s).K = none)
      ∧ (1 - ((25 - (GetK true hw s).Temperature) * s.TempCoeff / 100) ≠ 0 →
          (GetK true hw s).EC25
            = some (s.CalibrationEC
                / (1 - ((25 - (GetK true hw s).Temperature) * s.TempCoeff / 100))))
      ∧ (1 - ((25 - (GetK true hw s).Temperature) * s.TempCoeff / 100) = 0 →
          (GetK true hw s).EC25 = none) := by
  refine ⟨fun b => GetK_Vdrop b hw s, ?_, ?_, ?_, ?_, ?_, ?_, ?_, ?_⟩
  · intro b h
    rw [GetK_Rc]
    simp only [fdiv, fsub, if_neg h, Option.map_some']
  · intro b h
    rw [GetK_Rc]
    simp only [fdiv, fsub, if_pos h, Option.map_none']
  · intro rc h
    rw [GetK_K_disabled, h, fmul_some]
  · intro h
    rw [GetK_K_disabled, h, fmul_none_left]
  · intro rc ec h1 h2
    rw [GetK_K_enabled, h1, h2, fmul_some]
  · intro h
    rw [GetK_K_enabled]
    rcases h with h | h
    · rw [h, fmul_none_left]
    · rw [h, fmul_none_right]
  · intro h
    rw [GetK_EC25]
    simp only [fdiv, compensationDenominator, if_neg h]
  · intro h
    rw [GetK_EC25]
    simp only [fdiv, compensationDenominator, if_pos h]

/-- Instance of C4: power-on globals after `setup`, every ADC reading 1000 and both
temperature readings 20: `Rc = 249760 / 131`, `EC25 = CalibrationEC / 0.903065`, and
`K` is their product; with compensation disabled `K = Rc * CalibrationEC`. -/
theorem GetK_K_selection_witness :
    (GetK true (constantHardware 1000 20) (setup initialState)).Rc = some (249760 / 131)
      ∧ (GetK true (constantHardware 1000 20) (setup initialState)).EC25
          = some (100 / 0.55 / 0.903065)
      ∧ (GetK true (constantHardware 1000 20) (setup initialState)).K
          = some (249760 / 131 * (100 / 0.55 / 0.903065))
      ∧ (GetK false (constantHardware 1000 20) (setup initialState)).K
          = some (249760 / 131 * (100 / 0.55)) :=
  have hE : (GetK true (constantHardware 1000 20) (setup initialState)).EC25
      = some (100 / 0.55 / 0.903065) := by
    have h := (GetK_K_selection (constantHardware 1000 20) (setup initialState)).2.2.2.2.2.2.2.1
    rw [GetK_Temperature_constant] at h
    have h2 := h (by norm_num [setup, initialState])
    rw [h2]
    norm_num [setup, initialState]
  ⟨GetK_Rc_power_on true 20, hE,
    (GetK_K_selection (constantHardware 1000 20) (setup initialState)).2.2.2.2.2.1
      _ _ (GetK_Rc_power_on true 20) hE,
    (GetK_K_selection (constantHardware 1000 20) (setup initialState)).2.2.2.1
      _ (GetK_Rc_power_on false 20)⟩

/-- C5: with compensation enabled, whenever the before and after temperature readings
have mean 25, `GetK` sets `EC25` to `CalibrationEC` exactly, whatever `CalibrationEC`
and `TempCoeff` are. -/
theorem GetK_EC25_at_reference_temperature (hw : Hardware) (s : State)
    (h : (hw.getTempC s.tempReads + hw.getTempC (s.tempReads + 1)) / 2 = 25) :
    (GetK true hw s).EC25 = some s.CalibrationEC := by
  have hT : (GetK true hw s).Temperature = 25 := by
    obtain ⟨h1, h2, h3⟩ := GetK_temperatures hw s
    rw [h3, h1, h2, h]
  rw [GetK_EC25, hT]
  simp [compensationDenominator, fdiv]

/-- Instance of C5: power-on globals, temperature readings 24 and 26. -/
theorem GetK_EC25_at_reference_temperature_witness :
    (hardware_24_26.getTempC initialState.tempReads
        + hardware_24_26.getTempC (initialState.tempReads + 1)) / 2 = 25
      ∧ (GetK true hardware_24_26 initialState).EC25 = some initialState.CalibrationEC :=
  ⟨by norm_num [hardware_24_26, initialState],
    GetK_EC25_at_reference_temperature hardware_24_26 initialState
      (by norm_num [hardware_24_26, initialState])⟩

/-- C6: with compensation enabled `GetK` sets `Temperature` to
`(TemperatureStart + TemperatureFinish) / 2`, the two being the readings taken before
and after sampling; where the divisor is non-zero,
`EC25 = CalibrationEC / (1 - ((25 - Temperature) * TempCoeff / 100))`; at
`Temperature = 20` and `TempCoeff = 1.9387` this is
`CalibrationEC / (1 - (5 * 1.9387 / 100)) = CalibrationEC / 0.903065`. -/
theorem GetK_compensation_formula (hw : Hardware) (s : State) :
    (GetK true hw s).TemperatureStart = hw.getTempC s.tempReads
      ∧ (GetK true hw s).TemperatureFinish = hw.getTempC (s.tempReads + 1)
      ∧ (GetK true hw s).Temperature
          = ((GetK true hw s).TemperatureStart + (GetK true hw s).TemperatureFinish) / 2
      ∧ (1 - ((25 - (GetK true hw s).Temperature) * s.TempCoeff / 100) ≠ 0 →
          (GetK true hw s).EC25
            = some (s.CalibrationEC
                / (1 - ((25 - (GetK true hw s).Temperature) * s.TempCoeff / 100))))
      ∧ ((GetK true hw s).Temperature = 20 → s.TempCoeff = 1.9387 →
          (GetK true hw s).EC25 = some (s.CalibrationEC / (1 - (5 * 1.9387 / 100)))
            ∧ (GetK true hw s).EC25 = some (s.CalibrationEC / 0.903065)) := by
  obtain ⟨h1, h2, h3⟩ := GetK_temperatures hw s
  refine ⟨h1, h2, h3, ?_, ?_⟩
  · intro hden
    rw [GetK_EC25]
    simp only [fdiv, compensationDenominator, if_neg hden]
  · intro hT hTC
    rw [GetK_EC25, hT, hTC]
    have hden : compensationDenominator 20 1.9387 = 0.903065 := by
      norm_num [compensationDenominator]
    have hne : (0.903065 : ℚ) ≠ 0 := by norm_num
    rw [hden]
    simp only [fdiv, if_neg hne]
    constructor
    · norm_num
    · trivial

/-- Instance of C6: power-on globals (`TempCoeff = 1.9387`), both temperature readings 20. -/
theorem GetK_compensation_formula_witness :
    (GetK true (constantHardware 1000 20) initialState).Temperature = 20
      ∧ initialState.TempCoeff = 1.9387
      ∧ (GetK true (constantHardware 1000 20) initialState).EC25
          = some (initialState.CalibrationEC / 0.903065) :=
  have hT : (GetK true (constantHardware 1000 20) initialState).Temperature = 20 := by
    obtain ⟨h1, h2, h3⟩ := GetK_temperatures (constantHardware 1000 20) initialState
    rw [h3, h1, h2]
    norm_num [constantHardware]
  have hTC : initialState.TempCoeff = 1.9387 := by norm_num [initialState]
  ⟨hT, hTC,
    ((GetK_compensation_formula (constantHardware 1000 20) initialState).2.2.2.2 hT hTC).2⟩

/-- C7: for `Vin > 0` the voltage drop `Vdrop = (Vin * raw) / 1024` that `GetK` computes
is 0 when the averaged reading is 0, is strictly increasing in the averaged reading
(compared across two invocations with the same `Vin`), and for `0 ≤ raw ≤ 1024` lies
in `[0, Vin]`, reaching `Vin` only at `raw = 1024`. -/
theorem GetK_Vdrop_bounds (b : Bool) (hw hw2 : Hardware) (s s2 : State)
    (hVin : 0 < s.Vin) (hsame : s2.Vin = s.Vin) :
    (GetK b hw s).Vdrop = (s.Vin * (GetK b hw s).raw) / 1024
      ∧ ((GetK b hw s).raw = 0 → (GetK b hw s).Vdrop = 0)
      ∧ ((GetK b hw s).raw < (GetK b hw2 s2).raw →
          (GetK b hw s).Vdrop < (GetK b hw2 s2).Vdrop)
      ∧ (0 ≤ (GetK b hw s).raw → (GetK b hw s).raw ≤ 1024 →
          0 ≤ (GetK b hw s).Vdrop ∧ (GetK b hw s).Vdrop ≤ s.Vin
            ∧ ((GetK b hw s).Vdrop = s.Vin ↔ (GetK b hw s).raw = 1024)) := by
  rw [GetK_Vdrop b hw s, GetK_Vdrop b hw2 s2, hsame]
  generalize (GetK b hw s).raw = r
  generalize (GetK b hw2 s2).raw = r2
  refine ⟨rfl, ?_, ?_, ?_⟩
  · intro h
    rw [h]
    simp
  · intro h
    have : s.Vin * r < s.Vin * r2 := mul_lt_mul_of_pos_left h hVin
    exact div_lt_div_of_pos_right this (by norm_num)
  · intro h0 h1
    refine ⟨by positivity, ?_, ?_⟩
    · rw [div_le_iff₀ (by norm_num)]
      exact mul_le_mul_of_nonneg_left h1 hVin.le
    · rw [div_eq_iff (by norm_num)]
      constructor
      · intro h
        exact mul_left_cancel₀ hVin.ne' h
      · intro h
        rw [h]

/-- Instance of C7: power-on globals (`Vin = 3`), ADC readings all 0 against all 1000. -/
theorem GetK_Vdrop_bounds_witness :
    0 < initialState.Vin ∧ initialState.Vin = initialState.Vin
      ∧ (GetK true (constantHardware 0 25) initialState).Vdrop = 0
      ∧ (GetK true (constantHardware 0 25) initialState).Vdrop
          < (GetK true (constantHardware 1000 25) initialState).Vdrop
      ∧ (GetK true (constantHardware 1000 25) initialState).Vdrop ≤ initialState.Vin :=
  have hV : 0 < initialState.Vin := by norm_num [initialState]
  ⟨hV, rfl,
    (GetK_Vdrop_bounds true (constantHardware 0 25) (constantHardware 1000 25)
      initialState initialState hV rfl).2.1 (by rw [GetK_raw_constant]; norm_num),
    (GetK_Vdrop_bounds true (constantHardware 0 25) (constantHardware 1000 25)
      initialState initialState hV rfl).2.2.1
        (by rw [GetK_raw_constant, GetK_raw_constant]; norm_num),
    ((GetK_Vdrop_bounds true (constantHardware 1000 25) (constantHardware 0 25)
      initialState initialState hV rfl).2.2.2
        (by rw [GetK_raw_constant]; norm_num) (by rw [GetK_raw_constant]; norm_num)).2.1⟩

/-- C8: two states that agree on the configuration (`CalibrationEC`, `R1`, `Ra`, `Vin`,
`TempCoeff`) and are given the same sequences of ADC and temperature readings end
`GetK` with the same `raw`, `Vdrop`, `Rc`, `K`, `EC25` and `Temperature` when
compensation is enabled (and the same `raw`, `Vdrop`, `Rc`, `K` when it is disabled),
whatever their working variables held before. -/
theorem GetK_independent_of_working_variables (hw1 hw2 : Hardware) (s1 s2 : State)
    (hEC : s1.CalibrationEC = s2.CalibrationEC) (hR1 : s1.R1 = s2.R1)
    (hRa : s1.Ra = s2.Ra) (hVin : s1.Vin = s2.Vin) (hTC : s1.TempCoeff = s2.TempCoeff)
    (hadc : ∀ k, hw1.analogRead (s1.adcReads + k) = hw2.analogRead (s2.adcReads + k))
    (htemp : ∀ k, hw1.getTempC (s1.tempReads + k) = hw2.getTempC (s2.tempReads + k)) :
    ((GetK true hw1 s1).raw = (GetK true hw2 s2).raw
        ∧ (GetK true hw1 s1).Vdrop = (GetK true hw2 s2).Vdrop
        ∧ (GetK true hw1 s1).Rc = (GetK true hw2 s2).Rc
        ∧ (GetK true hw1 s1).K = (GetK true hw2 s2).K
        ∧ (GetK true hw1 s1).EC25 = (GetK true hw2 s2).EC25
        ∧ (GetK true hw1 s1).Temperature = (GetK true hw2 s2).Temperature)
      ∧ ((GetK false hw1 s1).raw = (GetK false hw2 s2).raw
        ∧ (GetK false hw1 s1).Vdrop = (GetK false hw2 s2).Vdrop
        ∧ (GetK false hw1 s1).Rc = (GetK false hw2 s2).Rc
        ∧ (GetK false hw1 s1).K = (GetK false hw2 s2).K) := by
  have hraw : ∀ b, (GetK b hw1 s1).raw = (GetK b hw2 s2).raw := by
    intro b
    rw [GetK_raw, GetK_raw]
    simp only [accumulated, hadc]
  have hVd : ∀ b, (GetK b hw1 s1).Vdrop = (GetK b hw2 s2).Vdrop := by
    intro b
    rw [GetK_Vdrop, GetK_Vdrop, hraw, hVin]
  have hRc : ∀ b, (GetK b hw1 s1).Rc = (GetK b hw2 s2).Rc := by
    intro b
    rw [GetK_Rc, GetK_Rc, hVd, hVin, hR1, hRa]
  have hT : (GetK true hw1 s1).Temperature = (GetK true hw2 s2).Temperature := by
    obtain ⟨a1, a2, a3⟩ := GetK_temperatures hw1 s1
    obtain ⟨b1, b2, b3⟩ := GetK_temperatures hw2 s2
    have e0 := htemp 0
    simp only [Nat.add_zero] at e0
    rw [a3, b3, a1, a2, b1, b2, e0, htemp 1]
  have hE : (GetK true hw1 s1).EC25 = (GetK true hw2 s2).EC25 := by
    rw [GetK_EC25, GetK_EC25, hT, hEC, hTC]
  refine ⟨⟨hraw true, hVd true, hRc true, ?_, hE, hT⟩, hraw false, hVd false, hRc false, ?_⟩
  · rw [GetK_K_enabled, GetK_K_enabled, hRc, hE]
  · rw [GetK_K_disabled, GetK_K_disabled, hRc, hEC]

/-- Instance of C8: the power-on state against `scrambledState`, the second run seeing the
same readings at shifted call numbers. -/
theorem GetK_independent_of_working_variables_witness :
    (GetK true rampHardware initialState).raw
        = (GetK true shiftedRampHardware scrambledState).raw
      ∧ (GetK true rampHardware initialState).K
        = (GetK true shiftedRampHardware scrambledState).K
      ∧ (GetK true rampHardware initialState).EC25
        = (GetK true shiftedRampHardware scrambledState).EC25 :=
  have h := GetK_independent_of_working_variables rampHardware shiftedRampHardware
    initialState scrambledState rfl rfl rfl rfl rfl
    (fun k => by simp [rampHardware, shiftedRampHardware, initialState, scrambledState])
    (fun k => by simp [rampHardware, shiftedRampHardware, initialState, scrambledState])
  ⟨h.1.1, h.1.2.2.2.1, h.1.2.2.2.2.1⟩

/-- C9: with `TempCoeff = 1.9387` the divisor `1 - ((25 - T) * TempCoeff / 100)` is
exactly zero at `T = 25 - 100 / 1.9387` and negative at every lower `T`, among them
-127.  `GetK` checks nothing: when the averaged temperature of an invocation is that
root, the division by zero is carried out, `EC25` is non-finite and so is `K`; when
it is lower, `EC25 = CalibrationEC / divisor` is finite with the sign opposite to
`CalibrationEC`, and `K` is the product `Rc * EC25` (non-finite only if `Rc` is). -/
theorem GetK_unguarded_compensation_divisor (hw : Hardware) (s : State)
    (hTC : s.TempCoeff = 1.9387) :
    compensationDenominator (25 - 100 / 1.9387) 1.9387 = 0
      ∧ (∀ T : ℚ, T < 25 - 100 / 1.9387 → compensationDenominator T 1.9387 < 0)
      ∧ (-127 : ℚ) < 25 - 100 / 1.9387
      ∧ ((GetK true hw s).Temperature = 25 - 100 / 1.9387 →
          (GetK true hw s).EC25 = none ∧ (GetK true hw s).K = none)
      ∧ ((GetK true hw s).Temperature < 25 - 100 / 1.9387 →
          1 - ((25 - (GetK true hw s).Temperature) * 1.9387 / 100) < 0
            ∧ (GetK true hw s).EC25
                = some (s.CalibrationEC
                    / (1 - ((25 - (GetK true hw s).Temperature) * 1.9387 / 100)))
            ∧ SignType.sign (s.CalibrationEC
                    / (1 - ((25 - (GetK true hw s).Temperature) * 1.9387 / 100)))
                = - SignType.sign s.CalibrationEC
            ∧ (∀ rc : ℚ, (GetK true hw s).Rc = some rc →
                (GetK true hw s).K
                  = some (rc * (s.CalibrationEC
                      / (1 - ((25 - (GetK true hw s).Temperature) * 1.9387 / 100)))))
            ∧ ((GetK true hw s).Rc = none → (GetK true hw s).K = none)) := by
  have hzero : compensationDenominator (25 - 100 / 1.9387) 1.9387 = 0 := by
    norm_num [compensationDenominator]
  have hneg : ∀ T : ℚ, T < 25 - 100 / 1.9387 → compensationDenominator T 1.9387 < 0 := by
    intro T h
    have h2 : (25 - T) * 1.9387 > 100 := by
      have : (100 / 1.9387 : ℚ) < 25 - T := by linarith
      rw [div_lt_iff₀ (by norm_num)] at this
      exact this
    unfold compensationDenominator
    linarith
  refine ⟨hzero, hneg, by norm_num, ?_, ?_⟩
  · intro hT
    have hE : (GetK true hw s).EC25 = none := by
      rw [GetK_EC25, hT, hTC, hzero]
      rfl
    exact ⟨hE, by rw [GetK_K_enabled, hE, fmul_none_right]⟩
  · intro hT
    have hd : compensationDenominator (GetK true hw s).Temperature 1.9387 < 0 := hneg _ hT
    have hE : (GetK true hw s).EC25
        = some (s.CalibrationEC
            / compensationDenominator (GetK true hw s).Temperature 1.9387) := by
      rw [GetK_EC25, hTC]
      simp only [fdiv, if_neg hd.ne]
    refine ⟨hd, hE, ?_, ?_, ?_⟩
    · change SignType.sign (s.CalibrationEC
          / compensationDenominator (GetK true hw s).Temperature 1.9387) = _
      rcases lt_trichotomy s.CalibrationEC 0 with h | h | h
      · rw [sign_pos (div_pos_of_neg_of_neg h hd), sign_neg h]
        rfl
      · rw [h, zero_div, sign_zero]
        rfl
      · rw [sign_neg (div_neg_of_pos_of_neg h hd), sign_pos h]
    · intro rc hrc
      rw [GetK_K_enabled, hrc, hE, fmul_some]
      rfl
    · intro hrc
      rw [GetK_K_enabled, hrc, fmul_none_left]

/-- Instance of C9 at the power-on globals after `setup` with every ADC reading 1000.
Both temperature readings at the root `25 - 100 / 1.9387`: `EC25` and `K` are
non-finite.  Both temperature readings -127: `EC25 = CalibrationEC / (-1.946824)` and
`K = (249760 / 131) * EC25`. -/
theorem GetK_unguarded_compensation_divisor_witness :
    (setup initialState).TempCoeff = 1.9387
      ∧ (GetK true (constantHardware 1000 (25 - 100 / 1.9387)) (setup initialState)).EC25
          = none
      ∧ (GetK true (constantHardware 1000 (25 - 100 / 1.9387)) (setup initialState)).K
          = none
      ∧ (GetK true (constantHardware 1000 (-127)) (setup initialState)).Temperature = -127
      ∧ (GetK true (constantHardware 1000 (-127)) (setup initialState)).EC25
          = some (100 / 0.55 / (-1.946824))
      ∧ (GetK true (constantHardware 1000 (-127)) (setup initialState)).K
          = some (249760 / 131 * (100 / 0.55 / (-1.946824))) :=
  have hTC : (setup initialState).TempCoeff = 1.9387 := rfl
  have h0 := (GetK_unguarded_compensation_divisor
    (constantHardware 1000 (25 - 100 / 1.9387)) (setup initialState) hTC).2.2.2.1
      (GetK_Temperature_constant 1000 (25 - 100 / 1.9387) (setup initialState))
  have hT : (GetK true (constantHardware 1000 (-127)) (setup initialState)).Temperature
      = -127 := GetK_Temperature_constant 1000 (-127) (setup initialState)
  have h1 := (GetK_unguarded_compensation_divisor
    (constantHardware 1000 (-127)) (setup initialState) hTC).2.2.2.2
      (by rw [hT]; norm_num)
  have hd : (1 : ℚ) - ((25 - (GetK true (constantHardware 1000 (-127))
      (setup initialState)).Temperature) * 1.9387 / 100) = -1.946824 := by
    rw [hT]
    norm_num
  have hC : (setup initialState).CalibrationEC = 100 / 0.55 := rfl
  ⟨hTC, h0.1, h0.2, hT, by rw [h1.2.1, hd, hC],
    by rw [h1.2.2.2.1 _ (GetK_Rc_power_on true (-127)), hd, hC]⟩

/-- C10: with `Vin = 3` and every ADC reading in `0..1023`, the averaged reading `GetK`
computes lies in `[0, 1024)`, so `Vdrop < Vin`, the divisor `Vin - Vdrop` of the
resistance is strictly positive and `Rc` is the finite value
`(Vdrop * R1) / (Vin - Vdrop) - Ra`. -/
theorem GetK_resistance_divisor_positive (b : Bool) (hw : Hardware) (s : State)
    (hVin : s.Vin = 3) (hrange : ∀ n, 0 ≤ hw.analogRead n ∧ hw.analogRead n ≤ 1023) :
    0 ≤ (GetK b hw s).raw ∧ (GetK b hw s).raw < 1024
      ∧ (GetK b hw s).Vdrop < (GetK b hw s).Vin
      ∧ 0 < (GetK b hw s).Vin - (GetK b hw s).Vdrop
      ∧ (GetK b hw s).Rc
          = some ((GetK b hw s).Vdrop * (s.R1 : ℚ)
              / ((GetK b hw s).Vin - (GetK b hw s).Vdrop) - (s.Ra : ℚ)) := by
  have q : ∀ n, (0 : ℚ) ≤ (hw.analogRead n : ℚ) ∧ (hw.analogRead n : ℚ) ≤ 1023 := by
    intro n
    exact ⟨by exact_mod_cast (hrange n).1, by exact_mod_cast (hrange n).2⟩
  have hraw0 : 0 ≤ (GetK b hw s).raw := by
    rw [GetK_raw]
    unfold accumulated
    have a1 := q (s.adcReads + 1)
    have a3 := q (s.adcReads + 3)
    have a5 := q (s.adcReads + 5)
    have a7 := q (s.adcReads + 7)
    have a9 := q (s.adcReads + 9)
    linarith
  have hraw : (GetK b hw s).raw < 1024 := by
    rw [GetK_raw]
    unfold accumulated
    have a1 := q (s.adcReads + 1)
    have a3 := q (s.adcReads + 3)
    have a5 := q (s.adcReads + 5)
    have a7 := q (s.adcReads + 7)
    have a9 := q (s.adcReads + 9)
    linarith
  have hV : (GetK b hw s).Vin = 3 := by rw [(GetK_config b hw s).2.2.2.1, hVin]
  have hVd : (GetK b hw s).Vdrop < 3 := by
    rw [GetK_Vdrop, hVin]
    linarith
  have hpos : 0 < (GetK b hw s).Vin - (GetK b hw s).Vdrop := by
    rw [hV]
    linarith
  refine ⟨hraw0, hraw, by rw [hV]; exact hVd, hpos, ?_⟩
  rw [hV] at hpos
  rw [GetK_Rc, hV, hVin]
  simp only [fdiv, fsub, if_neg hpos.ne', Option.map_some']

/-- Instance of C10: power-on globals after `setup`, every ADC reading 1023. -/
theorem GetK_resistance_divisor_positive_witness :
    (setup initialState).Vin = 3
      ∧ (∀ n, 0 ≤ (constantHardware 1023 25).analogRead n
          ∧ (constantHardware 1023 25).analogRead n ≤ 1023)
      ∧ 0 < (GetK true (constantHardware 1023 25) (setup initialState)).Vin
          - (GetK true (constantHardware 1023 25) (setup initialState)).Vdrop :=
  ⟨rfl, fun _ => by simp [constantHardware],
    (GetK_resistance_divisor_positive true (constantHardware 1023 25) (setup initialState)
      rfl (fun _ => by simp [constantHardware])).2.2.2.1⟩

end KCalibrator
